import Mathlib

/-!
Shallow embedding of the failover download orchestration engine of
`src/server/pulp/server/content/sources/warehouse.py` (classes
`ContentWarehouse`, `Listener`, `NectarListener`).

The companion module `model.py` (classes `Request`, `ContentSource`,
`PrimarySource`, `RefreshReport`) is not part of the provided sources, so the
pieces of it the warehouse relies on (`Request.next_source`,
`Request.has_source`, the `RefreshReport` record) are modelled from the spec,
as marked on each definition.

External collaborators are represented by explicit parameters:
* the catalog manager's `has_entries` is a function `String → Bool`, and its
  `purge_expired()` call is recorded as a boolean in the result;
* a registered source's `refresh()` call is represented by its outcome, an
  `Except String (List RefreshReport)` (normal return of a report list, or a
  raised exception carrying its message);
* caller listener callbacks are functions `Request → Except String Unit`
  (`Except.error` models the callback raising an exception);
* concurrent `cancel()` calls arriving during a pass are a schedule
  `ext : Nat → Bool` (`ext i` = a cancel call lands just before the i-th
  check of the `cancelled` flag); the flag observed at check `i` is the
  initial flag or any earlier external cancel (`cancelObserved`);
* the effect of dispatching one round of downloads on the request list is an
  environment function `env : Nat → List Request → List Request`.
-/

/-- A content source, reduced to its identity (dictionary key in collation). -/
structure ContentSource where
  id : String
deriving DecidableEq, Repr

/-- A candidate, as stored in `Request.sources`: a `(source, url)` pair. -/
abbrev Candidate : Type := ContentSource × String

/-- Modelled from the spec: a per-unit download request (`model.Request`):
destination, terminal `downloaded` flag, accumulated `errors`, the ordered
candidate list and the forward-only cursor (`index`) into it. -/
structure Request where
  destination : String
  downloaded : Bool
  errors : List String
  sources : List Candidate
  index : Nat
deriving DecidableEq, Repr

/-- Modelled from the spec: `Request.next_source()` returns the next unconsumed
candidate and advances the cursor, or `none` when exhausted; returns `none`
immediately (without advancing) when `downloaded` is already true.  The
returned `Request` is the post-call state of the mutated object. -/
def Request.next_source (r : Request) : Option Candidate × Request :=
  if r.downloaded then (none, r)
  else
    match r.sources[r.index]? with
    | some c => (some c, { r with index := r.index + 1 })
    | none => (none, r)

/-- Modelled from the spec: `Request.has_source()` is true iff the cursor has
not yet reached the end of the candidate list. -/
def Request.has_source (r : Request) : Bool :=
  decide (r.index < r.sources.length)

/-- Modelled from the spec: `model.RefreshReport` — source id, base url, and a
list of error strings. -/
structure RefreshReport where
  source_id : String
  url : String
  errors : List String
deriving DecidableEq, Repr

/-- A registered content source as the warehouse's `refresh` pass sees it:
its id and the outcome of calling its (external, catalog-writing)
`refresh()` method — a list of reports, or a raised exception's message. -/
structure RegisteredSource where
  id : String
  refreshResult : Except String (List RefreshReport)

/-- A caller-supplied download listener (`warehouse.Listener`): each callback
may raise (modelled by `Except.error` carrying the exception text). -/
structure Listener where
  download_started : Request → Except String Unit
  download_succeeded : Request → Except String Unit
  download_failed : Request → Except String Unit

/-- The content warehouse state (`ContentWarehouse.__init__`): the registered
sources, the optional listener, and the `cancelled` flag. -/
structure ContentWarehouse where
  sources : List RegisteredSource
  listener : Option Listener
  cancelled : Bool

/-- `ContentWarehouse.cancel()`: set the cancelled flag. -/
def ContentWarehouse.cancel (w : ContentWarehouse) : ContentWarehouse :=
  { w with cancelled := true }

/-- `ContentWarehouse.reset()`: clear the cancelled flag. -/
def ContentWarehouse.reset (w : ContentWarehouse) : ContentWarehouse :=
  { w with cancelled := false }

/-- A nectar `DownloadRequest(url, destination, data=request)`.  The opaque
`data` back-reference to the originating request is modelled as the request's
index in the request list passed to `collated`. -/
structure DownloadRequest where
  url : String
  destination : String
  data : Nat
deriving DecidableEq, Repr

/-- A collation: the dictionary built by `ContentWarehouse.collated`, as an
insertion-ordered association list keyed by content source. -/
def Collation : Type := List (ContentSource × List DownloadRequest)

/-- Python `collated.setdefault(key, []).append(v)`: append `v` to the list
bound to `key`, creating the binding (at the end) when absent. -/
def setdefaultAppend (m : Collation) (k : ContentSource) (v : DownloadRequest) :
    Collation :=
  match m with
  | [] => [(k, [v])]
  | (k', l) :: rest =>
      if k' = k then (k', l ++ [v]) :: rest
      else (k', l) :: setdefaultAppend rest k v

/-- Dictionary lookup in a collation, with `[]` for an absent key. -/
def collationLookup (m : Collation) (s : ContentSource) : List DownloadRequest :=
  match m with
  | [] => []
  | (k, l) :: rest => if k = s then l else collationLookup rest s

/-- The loop body of `ContentWarehouse.collated`: walk the request list
(`idx` is the position of the head request in the original list), skipping
requests already `downloaded`, skipping requests whose `next_source()` returns
`None`, and otherwise appending one nectar request under the candidate's
source.  Returns the built dictionary and the post-loop request states (each
request's cursor advanced by its `next_source()` call). -/
def collatedGo : Nat → List Request → Collation → Collation × List Request
  | _, [], acc => (acc, [])
  | idx, r :: rest, acc =>
      if r.downloaded then
        let p := collatedGo (idx + 1) rest acc
        (p.1, r :: p.2)
      else
        match r.next_source with
        | (none, r') =>
            let p := collatedGo (idx + 1) rest acc
            (p.1, r' :: p.2)
        | (some c, r') =>
            let p := collatedGo (idx + 1) rest
              (setdefaultAppend acc c.1 ⟨c.2, r.destination, idx⟩)
            (p.1, r' :: p.2)

/-- `ContentWarehouse.collated(request_list)`: nectar download requests
collated (keyed) by content source, together with the post-call request
states. -/
def ContentWarehouse.collated (request_list : List Request) :
    Collation × List Request :=
  collatedGo 0 request_list []

/-- Spec-side description of one request's contribution to a collation (for
the refinement statement of the collation claim): a request already
`downloaded` contributes nothing, a request with no candidate left at its
cursor contributes nothing, and any other request contributes exactly one
job under the source of its next candidate, carrying that candidate's
address, the request's destination and the back-reference `idx`. -/
def requestJob (idx : Nat) (r : Request) : Option (ContentSource × DownloadRequest) :=
  if r.downloaded then none
  else
    match r.sources[r.index]? with
    | none => none
    | some c => some (c.1, ⟨c.2, r.destination, idx⟩)

/-- Spec-side description of a collation's per-source contents: the jobs of
the requests (numbered from `idx`) whose `requestJob` lands on source `s`,
in request-list order. -/
def specJobsFrom (idx : Nat) (rl : List Request) (s : ContentSource) :
    List DownloadRequest :=
  match rl with
  | [] => []
  | r :: rest =>
      match requestJob idx r with
      | some (k, d) =>
          if k = s then d :: specJobsFrom (idx + 1) rest s
          else specJobsFrom (idx + 1) rest s
      | none => specJobsFrom (idx + 1) rest s

/-- A nectar download report as the event bridge consumes it: the opaque
`data` payload (the originating request) and the failure message. -/
structure NectarReport where
  data : Request
  error_msg : String

/-- Observable outcome of one event-bridge handler call: the request's state
after the call, whether `downloader.cancel()` was invoked, and whether the
caller's listener callback was invoked. -/
structure BridgeOutcome where
  request : Request
  downloaderCancelled : Bool
  notified : Bool

/-- `NectarListener._notify(method, request)`: invoke the listener method,
catching (and logging) any exception it raises. -/
def NectarListener.notify (method : Request → Except String Unit)
    (request : Request) : Except String Unit :=
  match method request with
  | Except.ok _ => Except.ok ()
  | Except.error _ => Except.ok ()

/-- `NectarListener.download_started(report)`: on cancellation, cancel the
downloader and return; otherwise forward to the warehouse's listener (when
registered) through `_notify`. -/
def NectarListener.download_started (w : ContentWarehouse) (report : NectarReport) :
    Except String BridgeOutcome :=
  if w.cancelled then Except.ok ⟨report.data, true, false⟩
  else
    let request := report.data
    match w.listener with
    | none => Except.ok ⟨request, false, false⟩
    | some l =>
        (NectarListener.notify l.download_started request).map
          (fun _ => ⟨request, false, true⟩)

/-- `NectarListener.download_succeeded(report)`: on cancellation, cancel the
downloader and return; otherwise mark the request `downloaded` and forward to
the warehouse's listener (when registered) through `_notify`. -/
def NectarListener.download_succeeded (w : ContentWarehouse) (report : NectarReport) :
    Except String BridgeOutcome :=
  if w.cancelled then Except.ok ⟨report.data, true, false⟩
  else
    let request := { report.data with downloaded := true }
    match w.listener with
    | none => Except.ok ⟨request, false, false⟩
    | some l =>
        (NectarListener.notify l.download_succeeded request).map
          (fun _ => ⟨request, false, true⟩)

/-- `NectarListener.download_failed(report)`: on cancellation, cancel the
downloader and return; otherwise append the failure message to the request's
errors, and forward to the warehouse's listener (when registered) only when
the request has no remaining candidate (`has_source()` is false). -/
def NectarListener.download_failed (w : ContentWarehouse) (report : NectarReport) :
    Except String BridgeOutcome :=
  if w.cancelled then Except.ok ⟨report.data, true, false⟩
  else
    let request := { report.data with errors := report.data.errors ++ [report.error_msg] }
    match w.listener with
    | none => Except.ok ⟨request, false, false⟩
    | some l =>
        if request.has_source then Except.ok ⟨request, false, false⟩
        else
          (NectarListener.notify l.download_failed request).map
            (fun _ => ⟨request, false, true⟩)

/-- The `cancelled` flag as observed at the i-th flag check of a pass: the
flag's value when the pass began, or an external `cancel()` call landing at
or before check `i` (the flag is only ever set, never cleared, mid-pass). -/
def cancelObserved (base : Bool) (ext : Nat → Bool) (i : Nat) : Bool :=
  base || (List.range (i + 1)).any ext

/-- Result of a `ContentWarehouse.refresh` call: the returned value (`none`
models Python's bare `return`, i.e. `None`; `some reports` a normal return)
and whether `catalog.purge_expired()` was invoked. -/
structure RefreshOutcome where
  ret : Option (List RefreshReport)
  purged : Bool
deriving DecidableEq, Repr

/-- The loop of `ContentWarehouse.refresh`: walk the registered sources with
the accumulated `reports`; at each iteration first check the cancelled flag
(bare `return` — `None` — without purging when set), then skip the source
unless `force` or the catalog has no fresh entries for it, calling its
`refresh()` and extending `reports`, or catching the raised exception and
appending a one-error `RefreshReport`.  After the loop, purge expired catalog
entries and return the reports. -/
def refreshLoop (force : Bool) (hasEntries : String → Bool) (flag : Nat → Bool) :
    Nat → List RegisteredSource → List RefreshReport → RefreshOutcome
  | _, [], reports => ⟨some reports, true⟩
  | n, src :: rest, reports =>
      if flag n then ⟨none, false⟩
      else
        if force || !hasEntries src.id then
          match src.refreshResult with
          | Except.ok report =>
              refreshLoop force hasEntries flag (n + 1) rest (reports ++ report)
          | Except.error e =>
              refreshLoop force hasEntries flag (n + 1) rest
                (reports ++ [⟨src.id, "", [e]⟩])
        else refreshLoop force hasEntries flag (n + 1) rest reports

/-- `ContentWarehouse.refresh(force)`: reset the cancelled flag, then run the
per-source refresh loop (the flag observed at iteration `i` combines the
post-reset flag with the external cancel schedule `ext`). -/
def ContentWarehouse.refresh (w : ContentWarehouse) (force : Bool)
    (hasEntries : String → Bool) (ext : Nat → Bool) : RefreshOutcome :=
  let w2 := ContentWarehouse.reset w
  refreshLoop force hasEntries (cancelObserved w2.cancelled ext) 0 w.sources []

/-- The dispatch loop of `ContentWarehouse.download` (its `while` loop): at
each round boundary `n` check the cancelled flag; build the collation of the
request list; stop when it is empty; otherwise dispatch every per-source
batch (recorded in the trace) and continue on the request list as transformed
by the round's download events (`env n`).  `fuel` bounds the recursion; the
returned trace is the list of dispatched collations. -/
def downloadLoop (flag : Nat → Bool) (env : Nat → List Request → List Request) :
    Nat → Nat → List Request → List Collation × List Request
  | 0, _, rl => ([], rl)
  | fuel + 1, n, rl =>
      if flag n then ([], rl)
      else
        let p := ContentWarehouse.collated rl
        if p.1.isEmpty then ([], p.2)
        else
          let q := downloadLoop flag env fuel (n + 1) (env n p.2)
          (p.1 :: q.1, q.2)

/-- `ContentWarehouse.download(downloader, request_list)`: reset the
cancelled flag (the subsequent `self.refresh()` call and the per-request
`find_sources` resolution — external catalog effects — are reflected in the
already-resolved candidate lists of `request_list`), then run the dispatch
loop. -/
def ContentWarehouse.download (w : ContentWarehouse) (ext : Nat → Bool)
    (env : Nat → List Request → List Request) (fuel : Nat)
    (request_list : List Request) : List Collation × List Request :=
  let w2 := ContentWarehouse.reset w
  downloadLoop (cancelObserved w2.cancelled ext) env fuel 0 request_list

/-- Spec-side description of one refresh pass's report list (for the
characterization of `refresh` without cancellation): each registered source is
skipped when not forced and the catalog still has fresh entries for it, and
otherwise contributes its own reports, or — when its `refresh()` raised — a
single `RefreshReport` carrying the exception's text in its errors list. -/
def refreshContrib (force : Bool) (hasEntries : String → Bool) :
    List RegisteredSource → List RefreshReport
  | [] => []
  | src :: rest =>
      if force || !hasEntries src.id then
        (match src.refreshResult with
         | Except.ok report => report
         | Except.error e => [⟨src.id, "", [e]⟩]) ++
          refreshContrib force hasEntries rest
      else refreshContrib force hasEntries rest

/-- The scoped failure boundary `NectarListener._notify` never lets a listener
exception escape: it always returns normally. -/
theorem NectarListener.notify_ok (method : Request → Except String Unit)
    (request : Request) : NectarListener.notify method request = Except.ok () := by
  unfold NectarListener.notify
  cases method request <;> rfl

/-- Appending an error message to a request does not change `has_source`. -/
theorem Request.has_source_append_error (r : Request) (msg : String) :
    Request.has_source { r with errors := r.errors ++ [msg] } = r.has_source := rfl

/-- C1: on a transport failed event with cancellation inactive and a listener
registered, the failure message is appended to the request's errors, the
downloader is not cancelled, and the listener's `download_failed` is invoked
if and only if the request has no remaining candidate (`has_source()` false). -/
theorem c1_failed_appends_error_and_notifies_iff_no_source
    (srcs : List RegisteredSource) (l : Listener) (report : NectarReport) :
    NectarListener.download_failed ⟨srcs, some l, false⟩ report =
      Except.ok ⟨{ report.data with errors := report.data.errors ++ [report.error_msg] },
        false, !report.data.has_source⟩ := by
  unfold NectarListener.download_failed
  by_cases h : Request.has_source { report.data with
      errors := report.data.errors ++ [report.error_msg] }
  · have h' : report.data.has_source = true := h
    simp [h, h', NectarListener.notify_ok, Except.map]
  · have h' : report.data.has_source = false := by
      rw [← Request.has_source_append_error report.data report.error_msg]
      exact Bool.of_not_eq_true h
    simp [h, h', NectarListener.notify_ok, Except.map]

/-- C7: whatever the caller's listener callbacks do (including raising), each
of the bridge's three event handlers returns normally — listener exceptions
are caught inside the bridge and never propagated to the transport. -/
theorem c7_listener_exceptions_never_propagate (w : ContentWarehouse)
    (report : NectarReport) :
    (∃ o, NectarListener.download_started w report = Except.ok o) ∧
    (∃ o, NectarListener.download_succeeded w report = Except.ok o) ∧
    (∃ o, NectarListener.download_failed w report = Except.ok o) := by
  unfold NectarListener.download_started NectarListener.download_succeeded
    NectarListener.download_failed
  by_cases hc : w.cancelled <;>
    cases hl : w.listener <;>
      simp [hc, hl, NectarListener.notify_ok, Except.map]
  split <;> simp

/-- C8: on a transport succeeded event, if the warehouse is cancelled the
bridge cancels the downloader and leaves the request unchanged; otherwise it
sets `downloaded := true` and notifies the listener exactly when one is
registered. -/
theorem c8_succeeded_cancels_or_marks_downloaded
    (srcs : List RegisteredSource) (l : Option Listener) (report : NectarReport) :
    NectarListener.download_succeeded ⟨srcs, l, true⟩ report =
      Except.ok ⟨report.data, true, false⟩ ∧
    NectarListener.download_succeeded ⟨srcs, l, false⟩ report =
      Except.ok ⟨{ report.data with downloaded := true }, false, l.isSome⟩ := by
  cases l <;> simp [NectarListener.download_succeeded, NectarListener.notify_ok, Except.map]

/-- C10: with cancellation inactive, the request mutation of the success and
failure handlers (marking downloaded, appending the error) happens before the
listener is consulted: the resulting request state is the same for every
listener value — absent, normal, or raising — so it survives a listener
exception and occurs even with no listener registered. -/
theorem c10_request_mutation_independent_of_listener
    (srcs : List RegisteredSource) (l : Option Listener)
    (rs rf : NectarReport) :
    NectarListener.download_succeeded ⟨srcs, l, false⟩ rs =
      Except.ok ⟨{ rs.data with downloaded := true }, false, l.isSome⟩ ∧
    NectarListener.download_failed ⟨srcs, l, false⟩ rf =
      Except.ok ⟨{ rf.data with errors := rf.data.errors ++ [rf.error_msg] },
        false, l.isSome && !rf.data.has_source⟩ := by
  constructor
  · cases l <;> simp [NectarListener.download_succeeded, NectarListener.notify_ok, Except.map]
  · cases l with
    | none => simp [NectarListener.download_failed]
    | some l0 =>
        by_cases h : Request.has_source { rf.data with
            errors := rf.data.errors ++ [rf.error_msg] }
        · have h' : rf.data.has_source = true := h
          simp [NectarListener.download_failed, h, h', NectarListener.notify_ok, Except.map]
        · have h' : rf.data.has_source = false := by
            rw [← Request.has_source_append_error rf.data rf.error_msg]
            exact Bool.of_not_eq_true h
          simp [NectarListener.download_failed, h, h', NectarListener.notify_ok, Except.map]

/-- C9: both `refresh` and `download` clear the cancelled flag at entry
(`reset`), so a `cancel()` issued before the pass starts has no effect on the
pass's result — the pass behaves exactly as if the flag had been clear. -/
theorem c9_entry_reset_discards_prior_cancel (w : ContentWarehouse)
    (force : Bool) (hasEntries : String → Bool) (ext : Nat → Bool)
    (env : Nat → List Request → List Request) (fuel : Nat)
    (rl : List Request) :
    ContentWarehouse.refresh (ContentWarehouse.cancel w) force hasEntries ext =
      ContentWarehouse.refresh w force hasEntries ext ∧
    ContentWarehouse.download (ContentWarehouse.cancel w) ext env fuel rl =
      ContentWarehouse.download w ext env fuel rl :=
  ⟨rfl, rfl⟩

/-- C4: the dispatch loop of `download` exits with no batch dispatched exactly
when the cancelled flag is observed at the round boundary or the round's
collation is empty; in particular a flag set before a round begins means no
further dispatch from that round on, and the model is a total function, so
`download` always returns (never raises).  The second conjunct restates this
at `download`'s entry round. -/
theorem c4_download_loop_exit_condition (flag : Nat → Bool)
    (env : Nat → List Request → List Request) (m n : Nat) (rl : List Request)
    (w : ContentWarehouse) (ext : Nat → Bool) :
    ((downloadLoop flag env (m + 1) n rl).1 = [] ↔
      (flag n = true ∨ (ContentWarehouse.collated rl).1 = [])) ∧
    ((ContentWarehouse.download w ext env (m + 1) rl).1 = [] ↔
      (cancelObserved false ext 0 = true ∨ (ContentWarehouse.collated rl).1 = [])) := by
  have key : ∀ (f : Nat → Bool) (k : Nat),
      ((downloadLoop f env (m + 1) k rl).1 = [] ↔
        (f k = true ∨ (ContentWarehouse.collated rl).1 = [])) := by
    intro f k
    by_cases hf : f k
    · simp [downloadLoop, hf]
    · cases hc : (ContentWarehouse.collated rl).1 with
      | nil => simp [downloadLoop, hf, hc]
      | cons a t => simp [downloadLoop, hf, hc]
  exact ⟨key flag n, key (cancelObserved false ext) 0⟩

/-- The observed-cancel flag is identically false when the pass begins with a
clear flag and no external cancel ever lands. -/
theorem cancelObserved_none (i : Nat) :
    cancelObserved false (fun _ => false) i = false := by
  simp [cancelObserved]

/-- With a never-set cancelled flag, the refresh loop runs to the end: it
purges the expired catalog entries and returns the accumulated reports
extended by every remaining source's contribution. -/
theorem refreshLoop_no_cancel (force : Bool) (hasEntries : String → Bool)
    (flag : Nat → Bool) (hf : ∀ i, flag i = false) :
    ∀ (srcs : List RegisteredSource) (n : Nat) (reports : List RefreshReport),
    refreshLoop force hasEntries flag n srcs reports =
      ⟨some (reports ++ refreshContrib force hasEntries srcs), true⟩ := by
  intro srcs
  induction srcs with
  | nil => intro n reports; simp [refreshLoop, refreshContrib]
  | cons src rest ih =>
      intro n reports
      by_cases hfo : (force || !hasEntries src.id)
      · cases hres : src.refreshResult with
        | ok report =>
            simp [refreshLoop, refreshContrib, hf n, hfo, hres, ih]
        | error e =>
            simp [refreshLoop, refreshContrib, hf n, hfo, hres, ih]
      · simp [refreshLoop, refreshContrib, hf n, hfo, ih]

/-- C3: a refresh pass that is never cancelled returns exactly the per-source
contributions of all registered sources — a source whose `refresh()` raises
contributes a single `RefreshReport` carrying the exception's text in its
errors list (see `refreshContrib`), and the remaining sources are still
processed and contribute as usual. -/
theorem c3_refresh_catches_per_source_failures (w : ContentWarehouse)
    (force : Bool) (hasEntries : String → Bool) :
    ContentWarehouse.refresh w force hasEntries (fun _ => false) =
      ⟨some (refreshContrib force hasEntries w.sources), true⟩ := by
  have h0 : ContentWarehouse.refresh w force hasEntries (fun _ => false) =
      refreshLoop force hasEntries (cancelObserved false (fun _ => false))
        0 w.sources [] := rfl
  rw [h0, refreshLoop_no_cancel force hasEntries _ cancelObserved_none]
  simp

/-- C5: on mid-loop cancellation `refresh` executes a bare `return`, so its
return value is `None`, not the reports collected so far: with two sources and
a cancel landing before the second is processed, the first source's report has
already been collected (second conjunct), yet the call returns `None` and
skips the purge (first conjunct). -/
theorem c5_refresh_cancel_mid_loop_returns_none :
    ContentWarehouse.refresh
        ⟨[⟨"s1", Except.ok [⟨"s1", "u1", []⟩]⟩, ⟨"s2", Except.ok []⟩], none, false⟩
        true (fun _ => false) (fun i => decide (i = 1)) =
      ⟨none, false⟩ ∧
    ContentWarehouse.refresh
        ⟨[⟨"s1", Except.ok [⟨"s1", "u1", []⟩]⟩, ⟨"s2", Except.ok []⟩], none, false⟩
        true (fun _ => false) (fun _ => false) =
      ⟨some [⟨"s1", "u1", []⟩], true⟩ :=
  ⟨rfl, rfl⟩

/-- C6 counterexample: a refresh pass with one registered source and a cancel
landing before the first iteration returns without calling
`catalog.purge_expired()` — refuting the claim that every invocation of
`refresh` purges before returning. -/
theorem c6_counterexample_cancel_skips_purge :
    (ContentWarehouse.refresh ⟨[⟨"s1", Except.ok []⟩], none, false⟩
        false (fun _ => false) (fun _ => true)).purged = false :=
  rfl

/-- C6 (amended): every invocation of `refresh` during which the cancelled
flag is never observed set — whatever `force` is and whether sources were
skipped or failed — calls `catalog.purge_expired()` before returning. -/
theorem c6_refresh_purges_when_not_cancelled (w : ContentWarehouse)
    (force : Bool) (hasEntries : String → Bool) :
    (ContentWarehouse.refresh w force hasEntries (fun _ => false)).purged = true := by
  have h0 : ContentWarehouse.refresh w force hasEntries (fun _ => false) =
      refreshLoop force hasEntries (cancelObserved false (fun _ => false))
        0 w.sources [] := rfl
  rw [h0, refreshLoop_no_cancel force hasEntries _ cancelObserved_none]

/-- Looking a source up after `setdefault(...).append(v)`: the bound list
gains `v` at its end for the key that was appended to, and is unchanged for
every other key. -/
theorem collationLookup_setdefaultAppend (m : Collation) (k : ContentSource)
    (v : DownloadRequest) (s : ContentSource) :
    collationLookup (setdefaultAppend m k v) s =
      if k = s then collationLookup m s ++ [v] else collationLookup m s := by
  induction m with
  | nil =>
      by_cases h : k = s <;> simp [setdefaultAppend, collationLookup, h]
  | cons p rest ih =>
      obtain ⟨k', l⟩ := p
      by_cases h1 : k' = k
      · subst h1
        by_cases h2 : k' = s <;>
          simp [setdefaultAppend, collationLookup, h2]
      · have hstep : setdefaultAppend ((k', l) :: rest) k v =
            (k', l) :: setdefaultAppend rest k v := by
          simp [setdefaultAppend, h1]
        rw [hstep]
        by_cases h2 : k' = s
        · have hks : ¬k = s := fun he => h1 (h2.trans he.symm)
          simp [collationLookup, h2, hks]
        · simp [collationLookup, h2, ih]

/-- The collation built by the loop of `collated`, looked up at any source,
is the lookup in the starting accumulator followed by the spec-side jobs of
the walked requests for that source. -/
theorem collatedGo_lookup (s : ContentSource) :
    ∀ (rl : List Request) (idx : Nat) (acc : Collation),
    collationLookup (collatedGo idx rl acc).1 s =
      collationLookup acc s ++ specJobsFrom idx rl s := by
  intro rl
  induction rl with
  | nil => intro idx acc; simp [collatedGo, specJobsFrom]
  | cons r rest ih =>
      intro idx acc
      by_cases hd : r.downloaded
      · simp [collatedGo, specJobsFrom, requestJob, hd, ih]
      · cases hg : r.sources[r.index]? with
        | none =>
            have hns : r.next_source = (none, r) := by
              simp [Request.next_source, hd, hg]
            simp [collatedGo, specJobsFrom, requestJob, hd, hg, hns, ih]
        | some c =>
            have hns : r.next_source =
                (some c, { r with index := r.index + 1 }) := by
              simp [Request.next_source, hd, hg]
            by_cases hcs : c.1 = s
            · simp [collatedGo, specJobsFrom, requestJob, hd, hg, hns, ih,
                collationLookup_setdefaultAppend, hcs]
            · simp [collatedGo, specJobsFrom, requestJob, hd, hg, hns, ih,
                collationLookup_setdefaultAppend, hcs]

/-- The post-call request list of the loop of `collated`: each request is
unchanged when already `downloaded` (no candidate consumed) and otherwise is
the post-state of its `next_source()` call. -/
theorem collatedGo_requests :
    ∀ (rl : List Request) (idx : Nat) (acc : Collation),
    (collatedGo idx rl acc).2 =
      rl.map (fun r => if r.downloaded then r else (r.next_source).2) := by
  intro rl
  induction rl with
  | nil => intro idx acc; simp [collatedGo]
  | cons r rest ih =>
      intro idx acc
      by_cases hd : r.downloaded
      · simp [collatedGo, hd, ih]
      · cases hg : r.sources[r.index]? with
        | none =>
            have hns : r.next_source = (none, r) := by
              simp [Request.next_source, hd, hg]
            simp [collatedGo, hd, hns, ih]
        | some c =>
            have hns : r.next_source =
                (some c, { r with index := r.index + 1 }) := by
              simp [Request.next_source, hd, hg]
            simp [collatedGo, hd, hns, ih]

/-- C2: `collated(request_list)` is exactly the spec-side collation: under
every source `s` it holds, in request order, one job per request that is not
yet `downloaded` and has a candidate at its cursor whose source is `s`,
carrying that candidate's address, the request's destination and the
back-reference to the request (its list index) — `downloaded` and exhausted
requests contribute nothing, and only the contributing requests have a
candidate consumed (cursor advanced by their `next_source()` call). -/
theorem c2_collated_matches_spec (request_list : List Request)
    (s : ContentSource) :
    collationLookup (ContentWarehouse.collated request_list).1 s =
      specJobsFrom 0 request_list s ∧
    (ContentWarehouse.collated request_list).2 =
      request_list.map (fun r => if r.downloaded then r else (r.next_source).2) := by
  constructor
  · have h := collatedGo_lookup s request_list 0 []
    simpa [ContentWarehouse.collated, collationLookup] using h
  · exact collatedGo_requests request_list 0 []
